import Mathlib

/-!
Verification of the core of the PyQt ImageFlow widget (imageflow.py):
curve geometry (Renderer.getRenderInfo), visible-range selection
(Renderer.renderImages), layout rectangles and degenerate scales,
option validation (ImageFlowWidget.setOptions), cache invalidation
(Image._clearCache), the position animator (Animator.start /
Animator.update), and image construction (Image.__init__,
ImageFlowWidget.setImages / setPixmaps).

Modelling conventions: Python floats are real numbers; fallible calls
return Except / Option; the mutable widget state is passed explicitly.
-/

namespace ImageFlow

/-- Values of the option o['curve'] that Renderer.getRenderInfo dispatches
on: the strings "arc", "v", "cos", "cossqrt", "peak", "gallery"
(imageflow.py lines 612-643). -/
inductive Curve
  | arc
  | v
  | cos
  | cossqrt
  | peak
  | gallery
deriving DecidableEq

/-- Curve part of Renderer.getRenderInfo (imageflow.py lines 604-643):
given the curve kind, o['imagesPerSide'], o['segmentRads'], the image
index and the current fractional position self.widget._pos, return the
pair (lx, z) of lateral offset and depth.  The central special case is
the source's test `index == self.widget.position()`, where position()
returns the raw (possibly fractional) _pos. -/
noncomputable def getRenderLxZ (c : Curve) (ips segmentRads : ℝ) (index : ℤ) (pos : ℝ) :
    ℝ × ℝ :=
  if (index : ℝ) = pos then (0, 1)
  else
    match c with
    | .arc =>
      let radians := ((index : ℝ) - pos) / ips * segmentRads / 2
      let minCos := Real.cos (segmentRads / 2)
      (Real.sin radians / |Real.sin (segmentRads / 2)|,
       (Real.cos radians - minCos) / (1 - minCos))
    | .v =>
      let lx := ((index : ℝ) - pos) / ips
      (lx, 1 - |lx|)
    | .cos =>
      let lx := ((index : ℝ) - pos) / ips
      (lx, Real.cos (lx * Real.pi / 2))
    | .cossqrt =>
      let lx0 := ((index : ℝ) - pos) / ips
      let lx := if 0 ≤ lx0 then Real.sqrt lx0 else -Real.sqrt (-lx0)
      (lx, Real.cos (lx * Real.pi / 2))
    | .peak =>
      let lx := ((index : ℝ) - pos) / ips
      (lx, if 0 ≤ lx then (lx - 1) ^ 2 else (lx + 1) ^ 2)
    | .gallery =>
      let lx := ((index : ℝ) - pos) / ips
      (lx, if 1 / ips ≤ |lx| then 0
           else if 0 ≤ lx then (lx * ips - 1) ^ 2 else (lx * ips + 1) ^ 2)

/-- Formulas of claim C1, written from the specification text: per curve
kind, the pair (lateralOffset, depth) as a function of
t = (index - focusPosition) / imagesPerSide.  This definition follows
the spec's words and is compared with getRenderLxZ, which follows the
source. -/
noncomputable def specCurvePoint (c : Curve) (ips segmentRads t : ℝ) : ℝ × ℝ :=
  match c with
  | .arc =>
    (Real.sin (t * segmentRads / 2) / Real.sin (segmentRads / 2),
     (Real.cos (t * segmentRads / 2) - Real.cos (segmentRads / 2)) /
       (1 - Real.cos (segmentRads / 2)))
  | .v => (t, 1 - |t|)
  | .cos => (t, Real.cos (t * Real.pi / 2))
  | .cossqrt =>
    (Real.sign t * Real.sqrt |t|, Real.cos (Real.sign t * Real.sqrt |t| * Real.pi / 2))
  | .peak => (t, if 0 ≤ t then (t - 1) ^ 2 else (t + 1) ^ 2)
  | .gallery =>
    (t, if 1 / ips ≤ |t| then 0
        else if 0 ≤ t then (t * ips - 1) ^ 2 else (t * ips + 1) ^ 2)

/-- Python 3 round() (round-half-to-even) on a real argument, as used for
the central index in Renderer.renderImages and ImageFlowWidget.indexAt. -/
noncomputable def pyRound (x : ℝ) : ℤ :=
  if Int.fract x = 1 / 2 then (if 2 ∣ ⌊x⌋ then ⌊x⌋ else ⌊x⌋ + 1) else round x

/-- Central index of Renderer.renderImages (line 502) and
ImageFlowWidget.indexAt (line 366):
max(0, min(round(self.widget._pos), len(images)-1)). -/
noncomputable def centerIndex (count : ℕ) (pos : ℝ) : ℤ :=
  max 0 (min (pyRound pos) ((count : ℤ) - 1))

/-- Number of neighbor indices considered to the left of the center by
Renderer.renderImages (lines 503-505): imagesPerSide, plus one when
_pos < round(_pos). -/
noncomputable def imagesLeftCount (ips : ℤ) (pos : ℝ) : ℤ :=
  ips + (if pos < (pyRound pos : ℝ) then 1 else 0)

/-- Number of neighbor indices considered to the right of the center by
Renderer.renderImages (lines 503-507): imagesPerSide, plus one when
_pos > round(_pos). -/
noncomputable def imagesRightCount (ips : ℤ) (pos : ℝ) : ℤ :=
  ips + (if (pyRound pos : ℝ) < pos then 1 else 0)

/-- Set of indices rendered by Renderer.renderImages (lines 502-509 and
527-547): the left range range(max(0, centerIndex-imagesLeft),
centerIndex), the center index itself, and the right range
range(centerIndex+1, min(centerIndex+imagesRight+1, len(images))). -/
noncomputable def visibleIndices (count : ℕ) (ips : ℤ) (pos : ℝ) : Finset ℤ :=
  Finset.Ico (max 0 (centerIndex count pos - imagesLeftCount ips pos))
      (centerIndex count pos) ∪
    {centerIndex count pos} ∪
    Finset.Ico (centerIndex count pos + 1)
      (min (centerIndex count pos + imagesRightCount ips pos + 1) (count : ℤ))

/-- Options of ImageFlowWidget read by the geometry of
Renderer.getRenderInfo: o['size'] (width, height), o['imagesPerSide'],
o['curve'], o['segmentRads'], o['minScale'], o['imageVAlign'],
o['reflection'] and o['reflectionFactor']. -/
structure GeomOptions where
  sizeW : ℝ
  sizeH : ℝ
  imagesPerSide : ℝ
  curve : Curve
  segmentRads : ℝ
  minScale : ℝ
  imageVAlign : ℝ
  reflection : Bool
  reflectionFactor : ℝ

/-- Rectangle as produced by Renderer.getRenderInfo (a QRect given by
position and size; coordinates kept as reals). -/
structure RenderRect where
  x : ℝ
  y : ℝ
  w : ℝ
  h : ℝ

/-- Default-constructed QtCore.QRect(): the invalid rect returned for
degenerate scales (imageflow.py line 647). -/
def invalidRect : RenderRect := ⟨0, 0, 0, 0⟩

/-- QRect.isValid(): positive width and height. -/
def RenderRect.isValid (r : RenderRect) : Prop := 0 < r.w ∧ 0 < r.h

noncomputable instance RenderRect.isValidDec (r : RenderRect) : Decidable r.isValid :=
  inferInstanceAs (Decidable (0 < r.w ∧ 0 < r.h))

/-- Outcome of Renderer.renderImage for a given rect. -/
inductive PaintOutcome
  | skipped
  | painted
deriving DecidableEq

/-- Guard of Renderer.renderImage (lines 554-556): the painter returns
immediately, drawing nothing, when info.rect is invalid. -/
noncomputable def renderImageOutcome (r : RenderRect) : PaintOutcome :=
  if r.isValid then .painted else .skipped

/-- Rect computation of Renderer.getRenderInfo (lines 645-676, without the
final translate): scale from minScale and the clamped depth; for scale
less than or equal to 0 the invalid QRect() is returned for both rect
and fullRect; otherwise width/height come from the cached pixmap (when
the image is STATE_READY, with the reflection strip folded into fullH)
or from o['size'] as placeholder, x is centered on the lateral offset
over Renderer._availableWidth() = bufferWidth - minScale*size.width()
(line 710), and y solves y + imageVAlign*h = imageVAlign*size.height(). -/
noncomputable def getRenderInfoRects (o : GeomOptions) (index : ℤ) (pos : ℝ)
    (ready : Bool) (cacheW cacheH bufW : ℝ) : RenderRect × RenderRect :=
  let lz := getRenderLxZ o.curve o.imagesPerSide o.segmentRads index pos
  let scale := o.minScale + min 1 lz.2 * (1 - o.minScale)
  if scale ≤ 0 then (invalidRect, invalidRect)
  else
    let whf : ℝ × ℝ × ℝ :=
      if ready then
        if o.reflection then
          (scale * cacheW, scale * cacheH / (1 + o.reflectionFactor), scale * cacheH)
        else (scale * cacheW, scale * cacheH, scale * cacheH)
      else (scale * o.sizeW, scale * o.sizeH, scale * o.sizeH)
    let x := lz.1 * (bufW - o.minScale * o.sizeW) / 2 - whf.1 / 2
    let y := o.imageVAlign * (o.sizeH - whf.2.1)
    (⟨x, y, whf.1, whf.2.1⟩, ⟨x, y, whf.1, whf.2.2⟩)

/-- Python values that can be passed to ImageFlowWidget.setOptions: bools,
ints, floats, strings, QSize, QColor. -/
inductive PyValue
  | pyBool (b : Bool)
  | pyInt (n : ℤ)
  | pyFloat (q : ℚ)
  | pyStr (s : String)
  | pySize (w h : ℤ)
  | pyColor (r g b a : ℤ)
deriving DecidableEq

/-- Python types appearing as first components of the OPTIONS tuples
(imageflow.py lines 47-87). -/
inductive OptType
  | tBool
  | tInt
  | tFloat
  | tStr
  | tSize
  | tColor
deriving DecidableEq

/-- Python isinstance(value, optionType): bool is a subclass of int; ints
and bools are not instances of float. -/
def isinstanceOf : PyValue → OptType → Bool
  | .pyBool _, .tBool => true
  | .pyBool _, .tInt => true
  | .pyInt _, .tInt => true
  | .pyFloat _, .tFloat => true
  | .pyStr _, .tStr => true
  | .pySize _ _, .tSize => true
  | .pyColor _ _ _ _, .tColor => true
  | _, _ => false

/-- Python isinstance(value, int), bools included, used by the
float-accepts-int clause of setOptions (line 241). -/
def isPyInt : PyValue → Bool
  | .pyBool _ => true
  | .pyInt _ => true
  | _ => false

/-- Declared type of each key of the OPTIONS dict (imageflow.py lines
47-87); none for unknown keys. -/
def optionType (k : String) : Option OptType :=
  if k = "size" then some .tSize
  else if k = "rotate" then some .tBool
  else if k = "imagesPerSide" then some .tInt
  else if k = "background" then some .tColor
  else if k = "curve" then some .tStr
  else if k = "segmentRads" then some .tFloat
  else if k = "minScale" then some .tFloat
  else if k = "vAlign" then some .tFloat
  else if k = "imageVAlign" then some .tFloat
  else if k = "reflection" then some .tBool
  else if k = "reflectionFactor" then some .tFloat
  else if k = "reflectionAlpha" then some .tFloat
  else if k = "fadeOut" then some .tBool
  else if k = "fadeStart" then some .tFloat
  else none

/-- Exceptions raised by ImageFlowWidget.setOptions (lines 238-243). -/
inductive OptError
  | keyError (k : String)
  | typeError (k : String)
deriving DecidableEq

/-- Validation of one (key, value) entry by setOptions (lines 238-243):
KeyError for unknown keys, TypeError unless isinstance(value, optionType)
holds or optionType is float and the value is an int. -/
def entryError (k : String) (v : PyValue) : Option OptError :=
  match optionType k with
  | none => some (.keyError k)
  | some ty =>
    if isinstanceOf v ty || (ty == .tFloat && isPyInt v) then none
    else some (.typeError k)

/-- Loop of ImageFlowWidget.setOptions (lines 236-246) over the entries of
the options dict in iteration order: each entry is validated, then
self._o[key] is mutated immediately and the key recorded in `changed`
when the value differs; the loop stops at the first invalid entry with
the raised error.  Returns the option store, the changed list and the
error, if any. -/
def setOptionsLoop (o : String → PyValue) (changed : List String) :
    List (String × PyValue) → (String → PyValue) × List String × Option OptError
  | [] => (o, changed, none)
  | (k, v) :: rest =>
    match entryError k v with
    | some e => (o, changed, some e)
    | none =>
      if v = o k then setOptionsLoop o changed rest
      else setOptionsLoop (Function.update o k v) (changed ++ [k]) rest

/-- OPTIONS_REBUILD_CACHE (imageflow.py line 89). -/
def OPTIONS_REBUILD_CACHE : List String :=
  ["size", "background", "reflection", "reflectionFactor"]

/-- STATE_INIT (imageflow.py line 98): the image is pending, not yet
decoded. -/
def STATE_INIT : ℕ := 1

/-- STATE_READY (imageflow.py line 98): decoded with the cache built. -/
def STATE_READY : ℕ := 2

/-- STATE_FAILED (imageflow.py line 98): decoding failed. -/
def STATE_FAILED : ℕ := 3

/-- Per-image state of imageflow.Image: the source path, the lifecycle
state and the cached derived artifact self._cache (none when absent);
pixmap contents are opaque, modelled by naturals. -/
structure ImageRec where
  path : Option String
  state : ℕ
  cache : Option ℕ
deriving DecidableEq

/-- Image._clearCache (lines 188-192): reset the state to STATE_INIT and
drop the cached artifact. -/
def clearCache (img : ImageRec) : ImageRec :=
  { img with state := STATE_INIT, cache := none }

/-- ImageFlowWidget.setOptions (lines 232-253): run the
validation/mutation loop; on success, if any changed key is in
OPTIONS_REBUILD_CACHE, clear every image's cache.  When an exception is
raised mid-loop the cache clearing is never reached, so the images are
untouched (while options already written stay written). -/
def setOptions (opts : List (String × PyValue)) (o : String → PyValue)
    (images : List ImageRec) :
    (String → PyValue) × List ImageRec × Option OptError :=
  match setOptionsLoop o [] opts with
  | (o1, changed, none) =>
    if changed.any (fun k => decide (k ∈ OPTIONS_REBUILD_CACHE)) then
      (o1, images.map clearCache, none)
    else (o1, images, none)
  | (o1, _, some e) => (o1, images, some e)

/-- Effect on the option store of processing a list of valid entries in
order, exactly as the setOptions loop does: write each value that
differs from the stored one. -/
def applyValidEntries (opts : List (String × PyValue)) (o : String → PyValue) :
    String → PyValue :=
  opts.foldl
    (fun acc kv => if kv.2 = acc kv.1 then acc else Function.update acc kv.1 kv.2) o

/-- Sample initial option store for concrete scenarios: the defaults
relevant to them (size 300x300, minScale 0.3). -/
def sampleStore : String → PyValue :=
  fun k =>
    if k = "size" then .pySize 300 300
    else if k = "minScale" then .pyFloat (3 / 10)
    else .pyBool false

/-- Sample image list for concrete scenarios: one STATE_READY image with a
built cache and one STATE_FAILED image. -/
def sampleImages : List ImageRec :=
  [⟨none, STATE_READY, some 7⟩, ⟨none, STATE_FAILED, none⟩]

/-- State of imageflow.Animator together with the widget position it
moves: the widget's _pos, the velocity _v, the target _target (none when
no animation) and whether the QTimer is active. -/
structure Animator where
  pos : ℝ
  v : ℝ
  target : Option ℝ
  active : Bool

/-- Acceleration constant of Animator.__init__ (line 734): 4 / INTERVAL
with INTERVAL = 30 milliseconds. -/
noncomputable def animAccel : ℝ := 4 / 30

/-- Animator.start (lines 743-752): clamp the target to [0, count-1]; if
the timer is inactive, or the clamped target lies on the opposite side
of the current position from the old target, reset the velocity to 0 and
(re)start the timer; otherwise only update the target.  When the timer
is active the source reads self._target, which is then never None; the
unreachable active-with-None state maps to none (a Python TypeError). -/
noncomputable def animStart (count : ℤ) (tgt : ℝ) (s : Animator) : Option Animator :=
  let t := max 0 (min tgt ((count : ℝ) - 1))
  match s.active, s.target with
  | false, _ => some { pos := s.pos, v := 0, target := some t, active := true }
  | true, none => none
  | true, some oldT =>
    if (oldT - s.pos) * (t - s.pos) < 0 then
      some { pos := s.pos, v := 0, target := some t, active := true }
    else some { pos := s.pos, v := s.v, target := some t, active := true }

/-- Animator.update (lines 759-771), one timer tick: when the position has
reached the target, stop (clear the target, deactivate the timer, keep
the velocity); otherwise cap the new velocity at sqrt(2*a*dist), move by
it and clamp at the target so the target is never crossed.  A state with
no target means the timer is inactive: no tick fires, the state is
unchanged. -/
noncomputable def animUpdate (a : ℝ) (s : Animator) : Animator :=
  match s.target with
  | none => s
  | some t =>
    if s.pos = t then { pos := s.pos, v := s.v, target := none, active := false }
    else
      let dist := |t - s.pos|
      let vNew := min (s.v + a) (Real.sqrt (2 * a * dist))
      if t > s.pos then
        { pos := min t (s.pos + vNew), v := vNew, target := some t, active := s.active }
      else
        { pos := max t (s.pos - vNew), v := vNew, target := some t, active := s.active }

/-- Subset of the ImageFlowWidget state mutated by setImages /
setPosition: the images list, the position _pos (None right after line
297) and the animator's target and activity. -/
structure WidgetState where
  images : List ImageRec
  pos : Option ℝ
  animTarget : Option ℝ
  animActive : Bool

/-- Result of a Python call that may raise NameError. -/
inductive PyCall (α : Type)
  | ok (a : α)
  | nameError (n : String)

/-- ImageFlowWidget.setImages (lines 293-300).  Line 298 reads
`if len(paths) > 0:` where `paths` is a free variable: it is neither the
parameter (named `images`) nor defined at module scope, so Python falls
back to the global environment, modelled by pathsGlobal (some list only
when the module runs as a script, which creates a global `paths` at line
926; none when the module is imported as a library).  The animator stop,
the assignment of self.images and `self._pos = None` happen before the
lookup; with no global the call then raises NameError.  When the global
exists and is non-empty, setPosition(min(len(self.images)//2,
o['imagesPerSide'])) runs, which clamps to [0, len(images)-1] and always
assigns because _pos is None. -/
noncomputable def setImages (pathsGlobal : Option (List String)) (ips : ℤ)
    (images : List ImageRec) (st : WidgetState) : PyCall WidgetState :=
  let st1 : WidgetState :=
    { st with images := images, pos := none, animTarget := none, animActive := false }
  match pathsGlobal with
  | none => .nameError "paths"
  | some paths =>
    if 0 < paths.length then
      let p : ℤ := min ((images.length : ℤ) / 2) ips
      let p2 : ℤ := max 0 (min p ((images.length : ℤ) - 1))
      .ok { st1 with pos := some (p2 : ℝ) }
    else .ok st1

/-- ImageFlowWidget.clear (lines 302-304): setImages([]). -/
noncomputable def clear (pathsGlobal : Option (List String)) (ips : ℤ)
    (st : WidgetState) : PyCall WidgetState :=
  setImages pathsGlobal ips [] st

/-- Exceptions raised by Image.__init__ (lines 107-111). -/
inductive InitError
  | valueError
  | assertionError
deriving DecidableEq

/-- Image.__init__ (lines 107-115): raise ValueError when neither path nor
pixmap is given; then `assert pixmap is None` (line 111) raises
AssertionError for every non-None pixmap; otherwise construct the image
in STATE_INIT with an empty cache. -/
def imageInit (path : Option String) (pixmap : Option ℕ) : Except InitError ImageRec :=
  if path = none ∧ pixmap = none then .error .valueError
  else if pixmap = none then .ok { path := path, state := STATE_INIT, cache := none }
  else .error .assertionError

/-- ImageFlowWidget.setPixmaps (lines 289-291): build one Image per given
pixmap via Image(pixmap=pixmap); the list comprehension propagates the
first exception. -/
def setPixmapsImages (pixmaps : List ℕ) : Except InitError (List ImageRec) :=
  pixmaps.mapM (fun p => imageInit none (some p))

/-- C1: for every index not taken by the center special case (the source's
test is `index == self.widget.position()`, i.e. index equal to the exact
focus position), with t = (index - focusPosition) / imagesPerSide, the
curve branch of Renderer.getRenderInfo returns exactly the per-kind
formulas of the specification (Arc, VShape, Cosine, CosineSqrt, Peak,
Gallery), for every segmentRads in the documented range (0, pi]. -/
theorem getRenderInfo_curve_formulas (c : Curve) (ips segmentRads : ℝ) (index : ℤ)
    (pos : ℝ) (hne : (index : ℝ) ≠ pos) (hsr0 : 0 < segmentRads)
    (hsrpi : segmentRads ≤ Real.pi) :
    getRenderLxZ c ips segmentRads index pos =
      specCurvePoint c ips segmentRads (((index : ℝ) - pos) / ips) := by
  have habs : |Real.sin (segmentRads / 2)| = Real.sin (segmentRads / 2) :=
    abs_of_nonneg (Real.sin_nonneg_of_nonneg_of_le_pi (by linarith)
      (by linarith [Real.pi_pos]))
  cases c <;> simp only [getRenderLxZ, specCurvePoint, if_neg hne]
  case arc => rw [habs]
  case cossqrt =>
    rcases lt_trichotomy (((index : ℝ) - pos) / ips) 0 with h | h | h
    · rw [if_neg (not_le.mpr h), Real.sign_of_neg h, abs_of_neg h]
      simp only [neg_one_mul]
    · rw [h]
      simp [Real.sign_zero]
    · rw [if_pos h.le, Real.sign_of_pos h, abs_of_pos h]
      simp only [one_mul]

/-- Witness for C1 at curve "v", imagesPerSide 5, segmentRads pi/2,
index 3, position 5/2. -/
theorem getRenderInfo_curve_formulas_witness :
    ((3 : ℤ) : ℝ) ≠ (5 / 2 : ℝ) ∧ (0 : ℝ) < Real.pi / 2 ∧ Real.pi / 2 ≤ Real.pi ∧
    getRenderLxZ Curve.v 5 (Real.pi / 2) 3 (5 / 2) =
      specCurvePoint Curve.v 5 (Real.pi / 2) ((((3 : ℤ) : ℝ) - 5 / 2) / 5) :=
  ⟨by norm_num, by positivity, by linarith [Real.pi_pos],
   getRenderInfo_curve_formulas Curve.v 5 (Real.pi / 2) 3 (5 / 2) (by norm_num)
     (by positivity) (by linarith [Real.pi_pos])⟩

/-- C2 (amended): the curve bypass of Renderer.getRenderInfo applies
exactly when the index equals the exact (possibly fractional) focus
position, not the rounded central index; whenever index = focusPosition
the function returns lateralOffset 0 and depth 1 for every curve kind,
so in particular curvePoint(c, c, ...) = (0, 1) for integer focus c. -/
theorem getRenderInfo_center_special_case (c : Curve) (ips segmentRads pos : ℝ)
    (index : ℤ) (h : (index : ℝ) = pos) :
    getRenderLxZ c ips segmentRads index pos = (0, 1) := by
  simp only [getRenderLxZ, if_pos h]

/-- Witness for the amended C2 at curve "arc", integer focus 3. -/
theorem getRenderInfo_center_special_case_witness :
    ((3 : ℤ) : ℝ) = (3 : ℝ) ∧ getRenderLxZ Curve.arc 5 1 3 3 = (0, 1) :=
  ⟨by norm_num, getRenderInfo_center_special_case Curve.arc 5 1 3 3 (by norm_num)⟩

/-- C2 counterexample: at focus position 4.4 with 10 images the rounded
central index clamp(round(4.4), 0, 9) is 4, but the curve model does not
bypass the curve for index 4: with curve "v" and imagesPerSide = 5 it
returns (-2/25, 23/25), not (0, 1). -/
theorem getRenderInfo_center_rounded_cex :
    max 0 (min (pyRound (22 / 5 : ℝ)) (10 - 1)) = (4 : ℤ) ∧
    getRenderLxZ Curve.v 5 (4 / 5 * Real.pi) 4 (22 / 5) ≠ (0, 1) := by
  constructor
  · have hfl : ⌊(22 / 5 : ℝ)⌋ = 4 := by
      rw [Int.floor_eq_iff]
      norm_num
    have hfr : Int.fract (22 / 5 : ℝ) = 2 / 5 := by
      rw [Int.fract, hfl]
      norm_num
    have hr : pyRound (22 / 5 : ℝ) = 4 := by
      rw [pyRound, if_neg (by rw [hfr]; norm_num), round_eq]
      have h49 : (22 / 5 : ℝ) + 1 / 2 = 49 / 10 := by norm_num
      rw [h49, Int.floor_eq_iff]
      norm_num
    rw [hr]
    decide
  · intro hEq
    have h1 : (getRenderLxZ Curve.v 5 (4 / 5 * Real.pi) 4 (22 / 5)).1 = -2 / 25 := by
      rw [getRenderLxZ, if_neg (by norm_num)]
      norm_num
    rw [hEq] at h1
    norm_num at h1

/-- Helper: Python round of an integer-valued position is that integer. -/
theorem pyRound_intCast (z : ℤ) : pyRound (z : ℝ) = z := by
  rw [pyRound, if_neg, round_intCast]
  rw [Int.fract_intCast]
  norm_num

/-- Helper: the three index groups of Renderer.renderImages (left range,
center, right range) form one clamped interval. -/
theorem centerRange_union_eq_Icc (c L R n : ℤ) (hL : 0 ≤ L) (hR : 0 ≤ R)
    (hc0 : 0 ≤ c) (hcn : c ≤ n - 1) :
    Finset.Ico (max 0 (c - L)) c ∪ {c} ∪ Finset.Ico (c + 1) (min (c + R + 1) n) =
      Finset.Icc (max 0 (c - L)) (min (c + R) (n - 1)) := by
  ext x
  simp only [Finset.mem_union, Finset.mem_singleton, Finset.mem_Ico, Finset.mem_Icc]
  omega

/-- C7: for every image count, imagesPerSide and focus position, the set
of indices rendered by Renderer.renderImages is exactly the interval from
max(0, c - imagesLeft) to min(c + imagesRight, count-1), where c is the
rounded clamped center, imagesLeft/imagesRight are imagesPerSide plus one
extra on the side the position approaches from; in particular with 10
images, imagesPerSide 3 and integer focus 4 the visible index range is
exactly [1, 7]. -/
theorem renderImages_visible_range (count : ℕ) (ips : ℤ) (pos : ℝ)
    (hc : 1 ≤ count) (hips : 0 ≤ ips) :
    visibleIndices count ips pos =
      Finset.Icc (max 0 (centerIndex count pos - imagesLeftCount ips pos))
        (min (centerIndex count pos + imagesRightCount ips pos) ((count : ℤ) - 1)) ∧
    visibleIndices 10 3 (4 : ℝ) = Finset.Icc 1 7 := by
  constructor
  · have hc1 : (0 : ℤ) ≤ centerIndex count pos := le_max_left _ _
    have hc2 : centerIndex count pos ≤ (count : ℤ) - 1 := by
      have h0 : (0 : ℤ) ≤ (count : ℤ) - 1 := by omega
      exact max_le h0 (min_le_right _ _)
    have hL : 0 ≤ imagesLeftCount ips pos := by
      rw [imagesLeftCount]
      split_ifs <;> omega
    have hR : 0 ≤ imagesRightCount ips pos := by
      rw [imagesRightCount]
      split_ifs <;> omega
    exact centerRange_union_eq_Icc _ _ _ _ hL hR hc1 hc2
  · have h4 : pyRound (4 : ℝ) = 4 := by
      have hcast : ((4 : ℤ) : ℝ) = (4 : ℝ) := by norm_num
      rw [← hcast, pyRound_intCast]
    have hci : centerIndex 10 (4 : ℝ) = 4 := by
      rw [centerIndex, h4]
      decide
    have hni : ¬ ((4 : ℝ) < (pyRound (4 : ℝ) : ℝ)) := by
      rw [h4]
      norm_num
    have hni2 : ¬ ((pyRound (4 : ℝ) : ℝ) < (4 : ℝ)) := by
      rw [h4]
      norm_num
    have hLc : imagesLeftCount 3 (4 : ℝ) = 3 := by
      rw [imagesLeftCount, if_neg hni, add_zero]
    have hRc : imagesRightCount 3 (4 : ℝ) = 3 := by
      rw [imagesRightCount, if_neg hni2, add_zero]
    rw [visibleIndices, hci, hLc, hRc]
    decide

/-- Witness for C7 at 10 images, imagesPerSide 3, position 4. -/
theorem renderImages_visible_range_witness :
    1 ≤ 10 ∧ (0 : ℤ) ≤ 3 ∧ visibleIndices 10 3 (4 : ℝ) = Finset.Icc 1 7 :=
  ⟨by norm_num, by norm_num, (renderImages_visible_range 10 3 4 (by norm_num) (by norm_num)).2⟩

/-- C9: setImages evaluates the free variable `paths` (line 298), which is
neither a parameter nor module-global, so in library use (no global named
paths) every call to setImages raises NameError before completing, and so
does clear, which calls setImages([]). -/
theorem setImages_nameError (ips : ℤ) (images : List ImageRec) (st : WidgetState) :
    setImages none ips images st = .nameError "paths" ∧
    clear none ips st = .nameError "paths" :=
  ⟨rfl, rfl⟩

/-- C10: contrary to the claim that an Image can be constructed from an
in-memory pixmap, Image.__init__ asserts pixmap is None (line 111), so
Image(pixmap=p) raises AssertionError for every non-None pixmap, and
setPixmaps fails on every non-empty list. -/
theorem image_pixmap_assert_failure (p : ℕ) (ps : List ℕ) :
    imageInit none (some p) = .error .assertionError ∧
    setPixmapsImages (p :: ps) = .error .assertionError :=
  ⟨rfl, rfl⟩

/-- C8: Renderer.getRenderInfo computes
scale = minScale + min(1, z)*(1 - minScale); whenever scale is at most 0
it returns the invalid QRect() for rect and fullRect and
Renderer.renderImage skips the image without drawing or raising; and (for
nonnegative pixmap/size dimensions and a reflectionFactor in the
documented range) a returned rectangle never has negative width or
height. -/
theorem getRenderInfo_degenerate_scale (o : GeomOptions) (index : ℤ) (pos : ℝ)
    (ready : Bool) (cacheW cacheH bufW : ℝ) (hcw : 0 ≤ cacheW) (hch : 0 ≤ cacheH)
    (hsw : 0 ≤ o.sizeW) (hsh : 0 ≤ o.sizeH) (hrf : 0 ≤ o.reflectionFactor) :
    (o.minScale +
        min 1 (getRenderLxZ o.curve o.imagesPerSide o.segmentRads index pos).2 *
          (1 - o.minScale) ≤ 0 →
      getRenderInfoRects o index pos ready cacheW cacheH bufW =
          (invalidRect, invalidRect) ∧
      renderImageOutcome (getRenderInfoRects o index pos ready cacheW cacheH bufW).1 =
        PaintOutcome.skipped) ∧
    (0 ≤ (getRenderInfoRects o index pos ready cacheW cacheH bufW).1.w ∧
     0 ≤ (getRenderInfoRects o index pos ready cacheW cacheH bufW).1.h ∧
     0 ≤ (getRenderInfoRects o index pos ready cacheW cacheH bufW).2.w ∧
     0 ≤ (getRenderInfoRects o index pos ready cacheW cacheH bufW).2.h) := by
  set z := (getRenderLxZ o.curve o.imagesPerSide o.segmentRads index pos).2 with hz
  set scale := o.minScale + min 1 z * (1 - o.minScale) with hscale
  rcases le_or_lt scale 0 with hneg | hpos
  · have hres : getRenderInfoRects o index pos ready cacheW cacheH bufW =
        (invalidRect, invalidRect) := by
      rw [getRenderInfoRects, ← hz, ← hscale, if_pos hneg]
    refine ⟨fun _ => ⟨hres, ?_⟩, ?_⟩
    · rw [hres, renderImageOutcome, if_neg]
      rw [invalidRect, RenderRect.isValid]
      push_neg
      intro h0
      norm_num at h0
    · rw [hres]
      exact ⟨le_refl 0, le_refl 0, le_refl 0, le_refl 0⟩
  · constructor
    · intro hle
      exact absurd hle (not_le.mpr hpos)
    · rw [getRenderInfoRects, ← hz, ← hscale, if_neg (not_le.mpr hpos)]
      have h1rf : (0 : ℝ) < 1 + o.reflectionFactor := by linarith
      cases ready <;> cases hrefl : o.reflection <;>
        simp only [Bool.false_eq_true, if_true, if_false, ite_true, ite_false] <;>
        refine ⟨?_, ?_, ?_, ?_⟩ <;>
        first
          | exact mul_nonneg hpos.le hsw
          | exact mul_nonneg hpos.le hsh
          | exact mul_nonneg hpos.le hcw
          | exact mul_nonneg hpos.le hch
          | exact div_nonneg (mul_nonneg hpos.le hch) h1rf.le

/-- Witness for C8 at concrete options (size 300x300, curve "v",
minScale 0.3, reflection with factor 0.6) and a ready 200x150 cache. -/
theorem getRenderInfo_degenerate_scale_witness :
    (0 : ℝ) ≤ 200 ∧ (0 : ℝ) ≤ 150 ∧
    (0 : ℝ) ≤ (GeomOptions.mk 300 300 5 Curve.v 1 (3 / 10) (4 / 5) true (3 / 5)).sizeW ∧
    (0 : ℝ) ≤ (GeomOptions.mk 300 300 5 Curve.v 1 (3 / 10) (4 / 5) true (3 / 5)).sizeH ∧
    (0 ≤ (getRenderInfoRects (GeomOptions.mk 300 300 5 Curve.v 1 (3 / 10) (4 / 5) true (3 / 5))
        3 0 true 200 150 1000).1.w ∧
     0 ≤ (getRenderInfoRects (GeomOptions.mk 300 300 5 Curve.v 1 (3 / 10) (4 / 5) true (3 / 5))
        3 0 true 200 150 1000).1.h ∧
     0 ≤ (getRenderInfoRects (GeomOptions.mk 300 300 5 Curve.v 1 (3 / 10) (4 / 5) true (3 / 5))
        3 0 true 200 150 1000).2.w ∧
     0 ≤ (getRenderInfoRects (GeomOptions.mk 300 300 5 Curve.v 1 (3 / 10) (4 / 5) true (3 / 5))
        3 0 true 200 150 1000).2.h) :=
  ⟨by norm_num, by norm_num, by norm_num, by norm_num,
   (getRenderInfo_degenerate_scale (GeomOptions.mk 300 300 5 Curve.v 1 (3 / 10) (4 / 5) true (3 / 5))
      3 0 true 200 150 1000 (by norm_num) (by norm_num) (by norm_num) (by norm_num)
      (by norm_num)).2⟩

/-- Helper: the changed list produced by the setOptions loop extends the
accumulator. -/
theorem setOptionsLoop_changed_extends (opts : List (String × PyValue)) :
    ∀ (o : String → PyValue) (ch : List String),
      ∃ tl, (setOptionsLoop o ch opts).2.1 = ch ++ tl := by
  induction opts with
  | nil =>
    intro o ch
    exact ⟨[], by simp [setOptionsLoop]⟩
  | cons kv rest ih =>
    intro o ch
    obtain ⟨k, v⟩ := kv
    cases hE : entryError k v with
    | some e =>
      refine ⟨[], ?_⟩
      simp [setOptionsLoop, hE]
    | none =>
      by_cases hv : v = o k
      · simpa only [setOptionsLoop, hE, if_pos hv] using ih o ch
      · simp only [setOptionsLoop, hE, if_neg hv]
        obtain ⟨tl, htl⟩ := ih (Function.update o k v) (ch ++ [k])
        exact ⟨[k] ++ tl, by rw [htl, List.append_assoc]⟩

/-- Helper: the setOptions loop leaves keys that do not occur in the
processed list untouched. -/
theorem setOptionsLoop_unchanged_outside (opts : List (String × PyValue)) :
    ∀ (o : String → PyValue) (ch : List String) (k : String),
      k ∉ opts.map Prod.fst → (setOptionsLoop o ch opts).1 k = o k := by
  induction opts with
  | nil =>
    intro o ch k _
    rfl
  | cons kv rest ih =>
    intro o ch k hk
    obtain ⟨k0, v⟩ := kv
    simp only [List.map_cons, List.mem_cons, not_or] at hk
    obtain ⟨hk0, hkr⟩ := hk
    cases hE : entryError k0 v with
    | some e => simp [setOptionsLoop, hE]
    | none =>
      by_cases hv : v = o k0
      · simp only [setOptionsLoop, hE, if_pos hv]
        exact ih o ch k hkr
      · simp only [setOptionsLoop, hE, if_neg hv]
        rw [ih (Function.update o k0 v) (ch ++ [k0]) k hkr,
          Function.update_noteq hk0]

/-- Helper: every key whose stored value differs after the setOptions loop
is in the produced changed list. -/
theorem setOptionsLoop_mem_changed_of_ne (opts : List (String × PyValue)) :
    ∀ (o : String → PyValue) (ch : List String) (k : String),
      (setOptionsLoop o ch opts).1 k ≠ o k → k ∈ (setOptionsLoop o ch opts).2.1 := by
  induction opts with
  | nil =>
    intro o ch k h
    exact absurd rfl h
  | cons kv rest ih =>
    intro o ch k h
    obtain ⟨k0, v⟩ := kv
    cases hE : entryError k0 v with
    | some e =>
      simp only [setOptionsLoop, hE] at h
      exact absurd rfl h
    | none =>
      by_cases hv : v = o k0
      · simp only [setOptionsLoop, hE, if_pos hv] at h ⊢
        exact ih o ch k h
      · simp only [setOptionsLoop, hE, if_neg hv] at h ⊢
        by_cases hkk : k = k0
        · subst hkk
          obtain ⟨tl, htl⟩ :=
            setOptionsLoop_changed_extends rest (Function.update o k v) (ch ++ [k])
          rw [htl]
          simp
        · refine ih _ _ k ?_
          rw [Function.update_noteq hkk]
          exact h

/-- Helper: with pairwise distinct keys and a successful loop, every key
in the produced changed list (beyond the accumulator) has a stored value
that differs from its initial one. -/
theorem setOptionsLoop_ne_of_mem_changed (opts : List (String × PyValue)) :
    ∀ (o : String → PyValue) (ch : List String) (o1 : String → PyValue)
      (ch1 : List String), (opts.map Prod.fst).Nodup →
      setOptionsLoop o ch opts = (o1, ch1, none) →
      ∀ k, k ∈ ch1 → k ∈ ch ∨ o1 k ≠ o k := by
  induction opts with
  | nil =>
    intro o ch o1 ch1 _ h k hk
    simp only [setOptionsLoop, Prod.mk.injEq] at h
    obtain ⟨-, h2, -⟩ := h
    rw [← h2] at hk
    exact Or.inl hk
  | cons kv rest ih =>
    intro o ch o1 ch1 hnd h k hk
    obtain ⟨k0, v⟩ := kv
    simp only [List.map_cons, List.nodup_cons] at hnd
    obtain ⟨hk0nin, hndr⟩ := hnd
    cases hE : entryError k0 v with
    | some e =>
      simp only [setOptionsLoop, hE, Prod.mk.injEq] at h
      exact absurd h.2.2 (by simp)
    | none =>
      by_cases hv : v = o k0
      · simp only [setOptionsLoop, hE, if_pos hv] at h
        exact ih o ch o1 ch1 hndr h k hk
      · simp only [setOptionsLoop, hE, if_neg hv] at h
        have ho1 : o1 k0 = v := by
          have hu := setOptionsLoop_unchanged_outside rest
            (Function.update o k0 v) (ch ++ [k0]) k0 hk0nin
          rw [h] at hu
          have hu2 : o1 k0 = Function.update o k0 v k0 := hu
          rw [hu2, Function.update_same]
        rcases ih _ _ _ _ hndr h k hk with hmem | hne
        · rcases List.mem_append.mp hmem with h1 | h2
          · exact Or.inl h1
          · have hkk : k = k0 := by simpa using h2
            subst hkk
            right
            rw [ho1]
            exact fun hc => hv hc
        · right
          by_cases hkk : k = k0
          · subst hkk
            rw [ho1]
            exact fun hc => hv hc
          · rw [Function.update_noteq hkk] at hne
            exact hne

/-- Helper: the setOptions loop raises at the first invalid entry, after
applying all valid entries before it. -/
theorem setOptionsLoop_first_error (post : List (String × PyValue)) (k : String)
    (v : PyValue) (e : OptError) (hbad : entryError k v = some e)
    (pre : List (String × PyValue)) :
    ∀ (o : String → PyValue) (ch : List String),
      (∀ p ∈ pre, entryError p.1 p.2 = none) →
      ∃ ch1, setOptionsLoop o ch (pre ++ (k, v) :: post) =
        (applyValidEntries pre o, ch1, some e) := by
  induction pre with
  | nil =>
    intro o ch _
    refine ⟨ch, ?_⟩
    simp [setOptionsLoop, hbad, applyValidEntries]
  | cons p rest ih =>
    intro o ch hval
    obtain ⟨k0, v0⟩ := p
    have h0 : entryError k0 v0 = none := hval (k0, v0) (by simp)
    simp only [List.cons_append, setOptionsLoop, h0]
    by_cases hv : v0 = o k0
    · rw [if_pos hv]
      have happ : applyValidEntries ((k0, v0) :: rest) o = applyValidEntries rest o := by
        simp [applyValidEntries, hv]
      rw [happ]
      exact ih o ch (fun p hp => hval p (by simp [hp]))
    · rw [if_neg hv]
      have happ : applyValidEntries ((k0, v0) :: rest) o =
          applyValidEntries rest (Function.update o k0 v0) := by
        simp [applyValidEntries, hv]
      rw [happ]
      exact ih (Function.update o k0 v0) (ch ++ [k0]) (fun p hp => hval p (by simp [hp]))

/-- C4 (amended): setOptions raises synchronously at the first invalid
entry of the map (KeyError for an unknown key, TypeError for a wrong
type), but mutation is not all-or-nothing: valid entries earlier in
iteration order are already applied when the error is raised, while later
entries and the image caches are untouched. -/
theorem setOptions_first_error (pre post : List (String × PyValue)) (k : String)
    (v : PyValue) (e : OptError) (o : String → PyValue) (images : List ImageRec)
    (hpre : ∀ p ∈ pre, entryError p.1 p.2 = none)
    (hbad : entryError k v = some e) :
    setOptions (pre ++ (k, v) :: post) o images =
      (applyValidEntries pre o, images, some e) := by
  obtain ⟨ch1, hL⟩ := setOptionsLoop_first_error post k v e hbad pre o [] hpre
  rw [setOptions, hL]

/-- Witness for the amended C4: a valid reflection entry followed by an
unknown key; the call raises KeyError("bogus") with the reflection entry
already applied. -/
theorem setOptions_first_error_witness :
    (∀ p ∈ [(("reflection" : String), PyValue.pyBool true)],
      entryError p.1 p.2 = none) ∧
    entryError "bogus" (PyValue.pyInt 0) = some (OptError.keyError "bogus") ∧
    setOptions [("reflection", PyValue.pyBool true), ("bogus", PyValue.pyInt 0)]
        sampleStore sampleImages =
      (applyValidEntries [("reflection", PyValue.pyBool true)] sampleStore,
        sampleImages, some (OptError.keyError "bogus")) :=
  ⟨by decide, by decide,
   setOptions_first_error [("reflection", PyValue.pyBool true)] [] "bogus"
     (PyValue.pyInt 0) (OptError.keyError "bogus") sampleStore sampleImages
     (by decide) (by decide)⟩

/-- C4 counterexample: setOptions({reflection: True, bogus: 0}) raises
KeyError for the unknown key, yet reflection has already been changed
from its previous value False to True — the claimed all-or-nothing
behavior fails. -/
theorem setOptions_partial_mutation_cex :
    (setOptions [("reflection", PyValue.pyBool true), ("bogus", PyValue.pyInt 0)]
        sampleStore []).2.2 = some (OptError.keyError "bogus") ∧
    (setOptions [("reflection", PyValue.pyBool true), ("bogus", PyValue.pyInt 0)]
        sampleStore []).1 "reflection" = PyValue.pyBool true ∧
    sampleStore "reflection" = PyValue.pyBool false :=
  ⟨rfl, rfl, rfl⟩

/-- C5: after a successful setOptions call, if the value of any of the
keys size, background, reflection, reflectionFactor changed, every image
(whatever its previous state, Ready and Failed included) is reset to
STATE_INIT with its cached artifact cleared; if none of those keys
changed, every image's state and cache are untouched. -/
theorem setOptions_cache_invalidation (opts : List (String × PyValue))
    (o o1 : String → PyValue) (images images1 : List ImageRec)
    (hnd : (opts.map Prod.fst).Nodup)
    (h : setOptions opts o images = (o1, images1, none)) :
    ((∃ k ∈ OPTIONS_REBUILD_CACHE, o1 k ≠ o k) → images1 = images.map clearCache) ∧
    ((∀ k ∈ OPTIONS_REBUILD_CACHE, o1 k = o k) → images1 = images) := by
  rcases hL : setOptionsLoop o [] opts with ⟨o2, ch, err⟩
  cases err with
  | some e =>
    simp only [setOptions, hL] at h
    simp at h
  | none =>
    simp only [setOptions, hL] at h
    by_cases hany : ch.any (fun k => decide (k ∈ OPTIONS_REBUILD_CACHE))
    · rw [if_pos hany] at h
      have ho : o2 = o1 := congrArg Prod.fst h
      have hi : images.map clearCache = images1 := congrArg (fun p => p.2.1) h
      subst ho
      constructor
      · intro _
        exact hi.symm
      · intro hall
        exfalso
        simp only [List.any_eq_true, decide_eq_true_eq] at hany
        obtain ⟨k, hkch, hkR⟩ := hany
        rcases setOptionsLoop_ne_of_mem_changed opts o [] o2 ch hnd hL k hkch with
          h0 | hne
        · simp at h0
        · exact hne (hall k hkR)
    · rw [if_neg hany] at h
      have ho : o2 = o1 := congrArg Prod.fst h
      have hi : images = images1 := congrArg (fun p => p.2.1) h
      subst ho
      constructor
      · intro hex
        exfalso
        obtain ⟨k, hkR, hne⟩ := hex
        have hkch := setOptionsLoop_mem_changed_of_ne opts o [] k (by rw [hL]; exact hne)
        rw [hL] at hkch
        apply hany
        simp only [List.any_eq_true, decide_eq_true_eq]
        exact ⟨k, hkch, hkR⟩
      · intro _
        exact hi.symm

/-- Witness for C5: setOptions({size: 100x100}) on the sample store with a
Ready and a Failed image resets both images to STATE_INIT with empty
caches. -/
theorem setOptions_cache_invalidation_witness :
    ([⟨none, STATE_INIT, none⟩, ⟨none, STATE_INIT, none⟩] : List ImageRec) =
      sampleImages.map clearCache :=
  (setOptions_cache_invalidation [("size", PyValue.pySize 100 100)] sampleStore
      (Function.update sampleStore "size" (PyValue.pySize 100 100)) sampleImages
      [⟨none, STATE_INIT, none⟩, ⟨none, STATE_INIT, none⟩] (by decide) rfl).1
    ⟨"size", by decide, by decide⟩

/-- Helper: one Animator.update tick preserves velocity nonnegativity,
keeps the target (unless it stops exactly at the target), and keeps the
position between the given bounds enclosing it and the target. -/
theorem animUpdate_invariant (a t lo hi : ℝ) (hlt : lo ≤ t) (hth : t ≤ hi)
    (s : Animator) (hv : 0 ≤ s.v)
    (htg : s.target = some t ∨ (s.target = none ∧ s.pos = t))
    (hlo : lo ≤ s.pos) (hhi : s.pos ≤ hi) (ha : 0 < a) :
    0 ≤ (animUpdate a s).v ∧
    ((animUpdate a s).target = some t ∨
      ((animUpdate a s).target = none ∧ (animUpdate a s).pos = t)) ∧
    lo ≤ (animUpdate a s).pos ∧ (animUpdate a s).pos ≤ hi := by
  rcases htg with htg | ⟨htg, hpt⟩
  · by_cases hp : s.pos = t
    · have hupd : animUpdate a s = ⟨s.pos, s.v, none, false⟩ := by
        simp only [animUpdate, htg, if_pos hp]
      rw [hupd]
      exact ⟨hv, Or.inr ⟨rfl, hp⟩, hlo, hhi⟩
    · have hvN0 : 0 ≤ min (s.v + a) (Real.sqrt (2 * a * |t - s.pos|)) :=
        le_min (by linarith) (Real.sqrt_nonneg _)
      by_cases hgt : t > s.pos
      · have hupd : animUpdate a s =
            ⟨min t (s.pos + min (s.v + a) (Real.sqrt (2 * a * |t - s.pos|))),
              min (s.v + a) (Real.sqrt (2 * a * |t - s.pos|)), some t, s.active⟩ := by
          simp only [animUpdate, htg, if_neg hp, if_pos hgt]
        rw [hupd]
        exact ⟨hvN0, Or.inl rfl, le_min hlt (by linarith),
          le_trans (min_le_left _ _) hth⟩
      · have hupd : animUpdate a s =
            ⟨max t (s.pos - min (s.v + a) (Real.sqrt (2 * a * |t - s.pos|))),
              min (s.v + a) (Real.sqrt (2 * a * |t - s.pos|)), some t, s.active⟩ := by
          simp only [animUpdate, htg, if_neg hp, if_neg hgt]
        rw [hupd]
        exact ⟨hvN0, Or.inl rfl, le_trans hlt (le_max_left _ _),
          max_le hth (by linarith)⟩
  · have hupd : animUpdate a s = s := by
      simp only [animUpdate, htg]
    rw [hupd]
    exact ⟨hv, Or.inr ⟨htg, hpt⟩, hlo, hhi⟩

/-- Helper: while the target is not reached, one Animator.update tick
either lands exactly on the target or shrinks the remaining distance by
at least the acceleration constant. -/
theorem animUpdate_progress (a t : ℝ) (ha : 0 < a) (s : Animator)
    (htg : s.target = some t) (hv : 0 ≤ s.v) (hne : s.pos ≠ t) :
    (animUpdate a s).pos = t ∨
      |t - (animUpdate a s).pos| ≤ |t - s.pos| - a := by
  have hd0 : 0 < |t - s.pos| := abs_pos.mpr (sub_ne_zero.mpr fun h => hne h.symm)
  have hsqnn : 0 ≤ Real.sqrt (2 * a * |t - s.pos|) := Real.sqrt_nonneg _
  have key : |t - s.pos| ≤ min (s.v + a) (Real.sqrt (2 * a * |t - s.pos|)) ∨
      a ≤ min (s.v + a) (Real.sqrt (2 * a * |t - s.pos|)) := by
    by_cases h2d : a ≤ 2 * |t - s.pos|
    · right
      refine le_min (by linarith) (Real.le_sqrt_of_sq_le ?_)
      nlinarith
    · left
      push_neg at h2d
      refine le_min (by linarith) (Real.le_sqrt_of_sq_le ?_)
      nlinarith
  by_cases hgt : t > s.pos
  · simp only [animUpdate, htg, if_neg hne, if_pos hgt]
    have hdv : |t - s.pos| = t - s.pos := abs_of_pos (by linarith)
    by_cases hreach : t ≤ s.pos + min (s.v + a) (Real.sqrt (2 * a * |t - s.pos|))
    · left
      rw [min_eq_left hreach]
    · right
      push_neg at hreach
      rw [min_eq_right hreach.le]
      have havN : a ≤ min (s.v + a) (Real.sqrt (2 * a * |t - s.pos|)) := by
        rcases key with h | h
        · exfalso
          linarith
        · exact h
      have habs : |t - (s.pos + min (s.v + a) (Real.sqrt (2 * a * |t - s.pos|)))| =
          t - (s.pos + min (s.v + a) (Real.sqrt (2 * a * |t - s.pos|))) :=
        abs_of_pos (by linarith)
      rw [habs]
      linarith
  · simp only [animUpdate, htg, if_neg hne, if_neg hgt]
    push_neg at hgt
    have htlt : t < s.pos := lt_of_le_of_ne hgt fun h => hne h.symm
    have hdv : |t - s.pos| = s.pos - t := by
      rw [abs_of_neg (by linarith), neg_sub]
    by_cases hreach : s.pos - min (s.v + a) (Real.sqrt (2 * a * |t - s.pos|)) ≤ t
    · left
      rw [max_eq_left hreach]
    · right
      push_neg at hreach
      rw [max_eq_right hreach.le]
      have havN : a ≤ min (s.v + a) (Real.sqrt (2 * a * |t - s.pos|)) := by
        rcases key with h | h
        · exfalso
          linarith
        · exact h
      have habs : |t - (s.pos - min (s.v + a) (Real.sqrt (2 * a * |t - s.pos|)))| =
          s.pos - min (s.v + a) (Real.sqrt (2 * a * |t - s.pos|)) - t := by
        rw [abs_of_neg (by linarith)]
        ring
      rw [habs]
      linarith

/-- Helper: invariant of the animation loop along iterated ticks from a
freshly started Animator state. -/
theorem animIterate_invariant (a p0 t : ℝ) (ha : 0 < a) (n : ℕ) :
    0 ≤ ((animUpdate a)^[n] ⟨p0, 0, some t, true⟩).v ∧
    (((animUpdate a)^[n] ⟨p0, 0, some t, true⟩).target = some t ∨
      (((animUpdate a)^[n] ⟨p0, 0, some t, true⟩).target = none ∧
        ((animUpdate a)^[n] ⟨p0, 0, some t, true⟩).pos = t)) ∧
    min p0 t ≤ ((animUpdate a)^[n] ⟨p0, 0, some t, true⟩).pos ∧
    ((animUpdate a)^[n] ⟨p0, 0, some t, true⟩).pos ≤ max p0 t := by
  induction n with
  | zero =>
    exact ⟨le_refl 0, Or.inl rfl, min_le_left _ _, le_max_left _ _⟩
  | succ n ih =>
    rw [Function.iterate_succ_apply']
    exact animUpdate_invariant a t (min p0 t) (max p0 t) (min_le_right _ _)
      (le_max_right _ _) _ ih.1 ih.2.1 ih.2.2.1 ih.2.2.2 ha

/-- Helper: after n ticks the remaining distance has shrunk by at least n
times the acceleration, unless the target is already reached. -/
theorem animIterate_distance (a p0 t : ℝ) (ha : 0 < a) (n : ℕ) :
    ((animUpdate a)^[n] ⟨p0, 0, some t, true⟩).pos = t ∨
      |t - ((animUpdate a)^[n] ⟨p0, 0, some t, true⟩).pos| ≤ |t - p0| - n * a := by
  induction n with
  | zero =>
    right
    simp
  | succ n ih =>
    obtain ⟨hv, htg, -, -⟩ := animIterate_invariant a p0 t ha n
    rw [Function.iterate_succ_apply']
    by_cases hpt : ((animUpdate a)^[n] ⟨p0, 0, some t, true⟩).pos = t
    · left
      rcases htg with htg | ⟨htg, -⟩
      · simp only [animUpdate, htg, if_pos hpt]
        exact hpt
      · simp only [animUpdate, htg]
        exact hpt
    · rcases htg with htg | ⟨-, hpt2⟩
      · rcases animUpdate_progress a t ha _ htg hv hpt with h | h
        · exact Or.inl h
        · right
          rcases ih with ih | ih
          · exact absurd ih hpt
          · refine le_trans h ?_
            push_cast
            linarith
      · exact absurd hpt2 hpt

/-- C3: from any start position, with the animator freshly started toward
any target (Animator.start resets the velocity to 0), repeated
Animator.update ticks reach the target position exactly after finitely
many ticks; the position never crosses past the target (it stays between
the start position and the target); and at every tick the new velocity
never exceeds sqrt(2*acceleration*distance), where distance is measured
before the move. -/
theorem animator_reaches_target (a p0 t : ℝ) (ha : 0 < a) :
    (∃ n : ℕ, ((animUpdate a)^[n] ⟨p0, 0, some t, true⟩).pos = t) ∧
    (∀ n : ℕ, min p0 t ≤ ((animUpdate a)^[n] ⟨p0, 0, some t, true⟩).pos ∧
      ((animUpdate a)^[n] ⟨p0, 0, some t, true⟩).pos ≤ max p0 t) ∧
    (∀ n : ℕ, ((animUpdate a)^[n] ⟨p0, 0, some t, true⟩).pos ≠ t →
      ((animUpdate a)^[n + 1] ⟨p0, 0, some t, true⟩).v ≤
        Real.sqrt (2 * a * |t - ((animUpdate a)^[n] ⟨p0, 0, some t, true⟩).pos|)) := by
  refine ⟨?_, ?_, ?_⟩
  · obtain ⟨n, hn⟩ := exists_nat_gt (|t - p0| / a)
    refine ⟨n, ?_⟩
    rcases animIterate_distance a p0 t ha n with h | h
    · exact h
    · exfalso
      rw [div_lt_iff₀ ha] at hn
      have hnn := abs_nonneg (t - ((animUpdate a)^[n] ⟨p0, 0, some t, true⟩).pos)
      linarith
  · intro n
    obtain ⟨-, -, h1, h2⟩ := animIterate_invariant a p0 t ha n
    exact ⟨h1, h2⟩
  · intro n hne
    obtain ⟨hv, htg, -, -⟩ := animIterate_invariant a p0 t ha n
    rw [Function.iterate_succ_apply']
    rcases htg with htg | ⟨-, hpt⟩
    · by_cases hgt : t > ((animUpdate a)^[n] ⟨p0, 0, some t, true⟩).pos
      · simp only [animUpdate, htg, if_neg hne, if_pos hgt]
        exact min_le_right _ _
      · simp only [animUpdate, htg, if_neg hne, if_neg hgt]
        exact min_le_right _ _
    · exact absurd hpt hne

/-- Witness for C3: the scenario of the spec, start position 2, target 5,
acceleration 4/30. -/
theorem animator_reaches_target_witness :
    (0 : ℝ) < animAccel ∧
    (∃ n : ℕ, ((animUpdate animAccel)^[n] (Animator.mk 2 0 (some 5) true)).pos = 5) :=
  ⟨by rw [animAccel]; norm_num,
   (animator_reaches_target animAccel 2 5 (by rw [animAccel]; norm_num)).1⟩

/-- C6 (amended): Animator.start during an in-flight animation resets the
velocity to 0 exactly when the clamped new target lies on the opposite
side of the current position ((oldTarget-pos)*(newTarget-pos) < 0); the
first post-reversal tick then has velocity
min(acceleration, sqrt(2*acceleration*distance)), which equals the
acceleration constant whenever the distance to the new target is at
least acceleration/2 (but not in general); with the new target on the
same side, the accumulated velocity is kept and only the target is
updated. -/
theorem animStart_direction (a newT pos v oldT : ℝ) (count : ℤ) (ha : 0 < a) :
    ((oldT - pos) * (max 0 (min newT ((count : ℝ) - 1)) - pos) < 0 →
      animStart count newT ⟨pos, v, some oldT, true⟩ =
        some ⟨pos, 0, some (max 0 (min newT ((count : ℝ) - 1))), true⟩ ∧
      (pos ≠ max 0 (min newT ((count : ℝ) - 1)) →
        (animUpdate a ⟨pos, 0, some (max 0 (min newT ((count : ℝ) - 1))), true⟩).v =
          min a (Real.sqrt (2 * a * |max 0 (min newT ((count : ℝ) - 1)) - pos|)) ∧
        (a / 2 ≤ |max 0 (min newT ((count : ℝ) - 1)) - pos| →
          (animUpdate a
            ⟨pos, 0, some (max 0 (min newT ((count : ℝ) - 1))), true⟩).v = a))) ∧
    (¬ (oldT - pos) * (max 0 (min newT ((count : ℝ) - 1)) - pos) < 0 →
      animStart count newT ⟨pos, v, some oldT, true⟩ =
        some ⟨pos, v, some (max 0 (min newT ((count : ℝ) - 1))), true⟩) := by
  constructor
  · intro hprod
    refine ⟨?_, ?_⟩
    · simp only [animStart]
      rw [if_pos hprod]
    · intro hne
      have hbody : (animUpdate a
          ⟨pos, 0, some (max 0 (min newT ((count : ℝ) - 1))), true⟩).v =
          min (0 + a) (Real.sqrt (2 * a * |max 0 (min newT ((count : ℝ) - 1)) - pos|)) := by
        by_cases hgt : max 0 (min newT ((count : ℝ) - 1)) > pos
        · simp only [animUpdate, if_neg hne, if_pos hgt]
        · simp only [animUpdate, if_neg hne, if_neg hgt]
      rw [zero_add] at hbody
      refine ⟨hbody, fun hd => ?_⟩
      rw [hbody]
      refine min_eq_left (Real.le_sqrt_of_sq_le ?_)
      have habs : 0 ≤ |max 0 (min newT ((count : ℝ) - 1)) - pos| := abs_nonneg _
      nlinarith
  · intro hnprod
    simp only [animStart]
    rw [if_neg hnprod]

/-- Witness for the amended C6: reversal scenario start(5) then start(0)
at position 2.3 with velocity 1 accumulated: the velocity is reset to
0. -/
theorem animStart_direction_witness :
    (0 : ℝ) < animAccel ∧
    animStart 10 0 (Animator.mk (23 / 10) 1 (some 5) true) =
      some (Animator.mk (23 / 10) 0 (some (max 0 (min 0 (((10 : ℤ) : ℝ) - 1)))) true) := by
  have ha : (0 : ℝ) < animAccel := by
    rw [animAccel]
    norm_num
  refine ⟨ha, ?_⟩
  have hprod : ((5 : ℝ) - 23 / 10) * (max 0 (min 0 (((10 : ℤ) : ℝ) - 1)) - 23 / 10) < 0 := by
    have hm : max 0 (min 0 (((10 : ℤ) : ℝ) - 1)) = 0 := by
      have h9 : ((10 : ℤ) : ℝ) - 1 = 9 := by norm_num
      rw [h9, min_eq_left (by norm_num), max_self]
    rw [hm]
    norm_num
  exact ((animStart_direction animAccel 0 (23 / 10) 1 5 10 ha).1 hprod).1

/-- C6 counterexample: a reversal mid-flight with the new target only
1/100 away (position 1/100 moving toward target 1, redirected by
start(0)).  The velocity is reset to 0 as claimed, but the first
post-reversal tick's velocity is sqrt(2*(4/30)*(1/100)), which is
strictly less than the acceleration constant 4/30 — the claim that the
first post-reversal tick's velocity always equals the acceleration
constant fails. -/
theorem animStart_first_tick_cex :
    ((1 : ℝ) - 1 / 100) * (0 - 1 / 100) < 0 ∧
    animStart 2 0 (Animator.mk (1 / 100) 0 (some 1) true) =
      some (Animator.mk (1 / 100) 0 (some 0) true) ∧
    (animUpdate animAccel (Animator.mk (1 / 100) 0 (some 0) true)).v ≠ animAccel := by
  have hm : max 0 (min 0 (((2 : ℤ) : ℝ) - 1)) = 0 := by
    have h1 : ((2 : ℤ) : ℝ) - 1 = 1 := by norm_num
    rw [h1, min_eq_left (by norm_num), max_self]
  refine ⟨by norm_num, ?_, ?_⟩
  · simp only [animStart, hm]
    rw [if_pos (by norm_num : ((1 : ℝ) - 1 / 100) * (0 - 1 / 100) < 0)]
  · have hne : (1 / 100 : ℝ) ≠ 0 := by norm_num
    have hv : (animUpdate animAccel (Animator.mk (1 / 100) 0 (some 0) true)).v =
        min (0 + animAccel) (Real.sqrt (2 * animAccel * |(0 : ℝ) - 1 / 100|)) := by
      simp only [animUpdate, if_neg hne,
        if_neg (by norm_num : ¬ ((0 : ℝ) > 1 / 100))]
    rw [hv, zero_add]
    have habs : |(0 : ℝ) - 1 / 100| = 1 / 100 := by
      rw [abs_of_neg (by norm_num)]
      norm_num
    rw [habs]
    have hlt : Real.sqrt (2 * animAccel * (1 / 100)) < animAccel := by
      rw [Real.sqrt_lt' (by rw [animAccel]; norm_num)]
      rw [animAccel]
      norm_num
    rw [min_eq_right hlt.le]
    exact ne_of_lt hlt

end ImageFlow
